import Mathlib

/-!
Verification of the capture/diff/pairing core of the WordPress Pixel Police
repository (src/diff.ts, src/index.ts, src/screenshot.ts, src/types.ts).

The TypeScript sources are shallowly embedded: raster images are lists of
byte values (row-major RGBA, exactly as in a pngjs buffer), the filesystem
is a partial map from paths to decoded images, the JavaScript numbers that
carry pixel statistics are modelled as exact rationals, fallible functions
return Except, and browser effects are abstracted into explicit outcome
functions.
-/

namespace PixelPolice

/-- Width/height pair, as carried by a pngjs PNG object and by the
beforeDimensions/afterDimensions fields of DiffResult (src/types.ts). -/
structure Dimensions where
  width : Nat
  height : Nat
deriving DecidableEq, Repr

/-- A decoded PNG: width, height and the RGBA byte buffer (row-major, four
bytes per pixel), as produced by PNG.sync.read in readPng (src/diff.ts). -/
structure Png where
  width : Nat
  height : Nat
  data : List Nat
deriving DecidableEq, Repr

/-- Byte access data[i] on a pngjs buffer.  Every access performed by the
embedded code is in range, so the default value 0 is never read. -/
def byteAt (data : List Nat) (i : Nat) : Nat :=
  data.getD i 0

/-- The four RGBA bytes of pixel (x, y) of an image whose byte at channel c
of pixel (x, y) is given by f x y c. -/
def pixelBytes (f : Nat → Nat → Nat → Nat) (x y : Nat) : List Nat :=
  [f x y 0, f x y 1, f x y 2, f x y 3]

/-- One row (y fixed) of a width-w RGBA buffer described by f. -/
def rowData (w : Nat) (f : Nat → Nat → Nat → Nat) (y : Nat) : List Nat :=
  (List.range w).flatMap (fun x => pixelBytes f x y)

/-- Row-major RGBA buffer of a w x h image whose byte at channel c of pixel
(x, y) is f x y c. -/
def mkData (w h : Nat) (f : Nat → Nat → Nat → Nat) : List Nat :=
  (List.range h).flatMap (rowData w f)

/-- CompareOptions of src/diff.ts with the DEFAULT_OPTIONS values filled in;
compareScreenshots spreads the defaults under the caller's options, and its
only caller in src/index.ts passes no options at all, so these defaults are
the effective configuration. -/
structure CompareOptions where
  threshold : ℚ := 1/10
  diffColor : Nat × Nat × Nat := (255, 0, 0)
  alpha : ℚ := 1/10
  diffMask : Bool := false
deriving DecidableEq, Repr

/-- Default options record (DEFAULT_OPTIONS in src/diff.ts). -/
def defaultCompareOptions : CompareOptions := {}

/-- Luma coordinate of the YIQ colour space, as in the pixelmatch
dependency (rgb2y). -/
def rgb2y (r g b : ℚ) : ℚ := r * 0.29889531 + g * 0.58662247 + b * 0.11448223

/-- I coordinate of the YIQ colour space, as in the pixelmatch dependency. -/
def rgb2i (r g b : ℚ) : ℚ := r * 0.59597799 - g * 0.27417610 - b * 0.32180189

/-- Q coordinate of the YIQ colour space, as in the pixelmatch dependency. -/
def rgb2q (r g b : ℚ) : ℚ := r * 0.21147017 - g * 0.52261711 + b * 0.31114694

/-- Alpha blending of one channel over a white background, as in the
pixelmatch dependency (blend). -/
def blendChannel (c a : ℚ) : ℚ := 255 + (c - 255) * a

/-- colorDelta of the pixelmatch dependency: signed squared YIQ distance
between pixel at byte offset k of img1 and pixel at byte offset m of img2,
with semi-transparent pixels first blended over white.  Pixels with equal
RGBA bytes short-circuit to 0.  The sign records whether the pixel got
lighter; callers compare the absolute value against the threshold. -/
def colorDelta (img1 img2 : List Nat) (k m : Nat) (yOnly : Bool) : ℚ :=
  let r1 : ℚ := byteAt img1 k
  let g1 : ℚ := byteAt img1 (k+1)
  let b1 : ℚ := byteAt img1 (k+2)
  let a1 : ℚ := byteAt img1 (k+3)
  let r2 : ℚ := byteAt img2 m
  let g2 : ℚ := byteAt img2 (m+1)
  let b2 : ℚ := byteAt img2 (m+2)
  let a2 : ℚ := byteAt img2 (m+3)
  if a1 = a2 ∧ r1 = r2 ∧ g1 = g2 ∧ b1 = b2 then 0
  else
    let p1 : ℚ × ℚ × ℚ :=
      if a1 < 255 then
        (blendChannel r1 (a1/255), blendChannel g1 (a1/255), blendChannel b1 (a1/255))
      else (r1, g1, b1)
    let p2 : ℚ × ℚ × ℚ :=
      if a2 < 255 then
        (blendChannel r2 (a2/255), blendChannel g2 (a2/255), blendChannel b2 (a2/255))
      else (r2, g2, b2)
    let y1 := rgb2y p1.1 p1.2.1 p1.2.2
    let y2 := rgb2y p2.1 p2.2.1 p2.2.2
    let y := y1 - y2
    if yOnly then y
    else
      let i := rgb2i p1.1 p1.2.1 p1.2.2 - rgb2i p2.1 p2.2.1 p2.2.2
      let q := rgb2q p1.1 p1.2.1 p1.2.2 - rgb2q p2.1 p2.2.1 p2.2.2
      let delta := 0.5053 * y * y + 0.299 * i * i + 0.1957 * q * q
      if y2 < y1 then -delta else delta

/-- The 3x3 neighbourhood of (x1, y1) clipped to the image, centre pixel
excluded, in the x-outer/y-inner iteration order used by pixelmatch. -/
def neighborPositions (x1 y1 width height : Nat) : List (Nat × Nat) :=
  let x0 := x1 - 1
  let x2 := min (x1 + 1) (width - 1)
  let y0 := y1 - 1
  let y2 := min (y1 + 1) (height - 1)
  ((List.range' x0 (x2 + 1 - x0)).flatMap (fun x =>
    (List.range' y0 (y2 + 1 - y0)).map (fun y => (x, y)))).filter
      (fun p => !(p.1 == x1 && p.2 == y1))

/-- Initial zero count of pixelmatch's neighbour scans: a pixel on the
image border starts with one phantom zero sibling. -/
def edgeZeroes (x1 y1 width height : Nat) : Nat :=
  if x1 = x1 - 1 ∨ x1 = min (x1 + 1) (width - 1) ∨
      y1 = y1 - 1 ∨ y1 = min (y1 + 1) (height - 1) then 1 else 0

/-- hasManySiblings of the pixelmatch dependency: more than two neighbours
of (x1, y1) (the border counting as one) carry exactly its RGBA bytes. -/
def hasManySiblings (img : List Nat) (x1 y1 width height : Nat) : Bool :=
  let pos := (y1 * width + x1) * 4
  let zeroes := edgeZeroes x1 y1 width height +
    (neighborPositions x1 y1 width height).countP (fun p =>
      let pos2 := (p.2 * width + p.1) * 4
      byteAt img pos == byteAt img pos2 &&
      byteAt img (pos + 1) == byteAt img (pos2 + 1) &&
      byteAt img (pos + 2) == byteAt img (pos2 + 2) &&
      byteAt img (pos + 3) == byteAt img (pos2 + 3))
  decide (2 < zeroes)

/-- State of the neighbour scan of pixelmatch's antialiased check: number of
zero deltas seen, most negative and most positive brightness delta so far
and the positions where they occurred. -/
structure AAScan where
  zeroes : Nat
  minDelta : ℚ
  maxDelta : ℚ
  minPos : Nat × Nat
  maxPos : Nat × Nat

/-- Neighbour loop of pixelmatch's antialiased check.  The result none
models the early return false taken as soon as more than two neighbours
equal the centre pixel. -/
def aaScanLoop (img : List Nat) (pos width : Nat) :
    List (Nat × Nat) → AAScan → Option AAScan
  | [], st => some st
  | p :: rest, st =>
    let delta := colorDelta img img pos ((p.2 * width + p.1) * 4) true
    if delta = 0 then
      if 2 < st.zeroes + 1 then none
      else aaScanLoop img pos width rest { st with zeroes := st.zeroes + 1 }
    else if delta < st.minDelta then
      aaScanLoop img pos width rest { st with minDelta := delta, minPos := p }
    else if st.maxDelta < delta then
      aaScanLoop img pos width rest { st with maxDelta := delta, maxPos := p }
    else
      aaScanLoop img pos width rest st

/-- antialiased of the pixelmatch dependency: does pixel (x1, y1) of img
look like an artefact of anti-aliasing when compared against img2. -/
def antialiased (img : List Nat) (x1 y1 width height : Nat) (img2 : List Nat) : Bool :=
  let pos := (y1 * width + x1) * 4
  match aaScanLoop img pos width (neighborPositions x1 y1 width height)
      { zeroes := edgeZeroes x1 y1 width height, minDelta := 0, maxDelta := 0,
        minPos := (0, 0), maxPos := (0, 0) } with
  | none => false
  | some st =>
    if st.minDelta = 0 ∨ st.maxDelta = 0 then false
    else
      (hasManySiblings img st.minPos.1 st.minPos.2 width height &&
        hasManySiblings img2 st.minPos.1 st.minPos.2 width height) ||
      (hasManySiblings img st.maxPos.1 st.maxPos.2 width height &&
        hasManySiblings img2 st.maxPos.1 st.maxPos.2 width height)

/-- All pixel positions of a width x height canvas in the row-major order
of pixelmatch's main loop. -/
def pixelPositions (width height : Nat) : List (Nat × Nat) :=
  (List.range height).flatMap (fun y => (List.range width).map (fun x => (x, y)))

/-- Is pixel (x, y) counted as different by pixelmatch?  includeAA keeps
its default value false, since compareScreenshots never sets it, so a pixel
over the colour threshold is still discounted when either image considers
it anti-aliased. -/
def isDiffPixel (img1 img2 : List Nat) (width height : Nat) (threshold : ℚ)
    (x y : Nat) : Bool :=
  let pos := (y * width + x) * 4
  let delta := colorDelta img1 img2 pos pos false
  decide (35215 * threshold * threshold < |delta|) &&
    !(antialiased img1 x y width height img2 || antialiased img2 x y width height img1)

/-- Diff count returned by the pixelmatch dependency: identical buffers
short-circuit to zero (the library's fast path), otherwise every canvas
pixel whose colour delta exceeds 35215 * threshold^2 and that is not judged
anti-aliased is counted.  The painted diff output image is not modelled;
no claim refers to its bytes, only to the returned count. -/
def pixelmatchCount (img1 img2 : List Nat) (width height : Nat) (threshold : ℚ) : Nat :=
  if img1 = img2 then 0
  else (pixelPositions width height).countP
    (fun p => isDiffPixel img1 img2 width height threshold p.1 p.2)

/-- padImage (src/diff.ts lines 52-83): extend png onto a targetWidth x
targetHeight canvas with the image at the top-left origin and every byte
outside it fully opaque white (255).  The imperative original first fills
the whole canvas white and then copies the source over the top-left
rectangle; that is byte-for-byte this construction whenever the source fits
inside the target, and compareScreenshots only calls padImage with the
element-wise maximum of the two input sizes, where it always fits. -/
def padImage (png : Png) (targetWidth targetHeight : Nat) : Png :=
  if png.width = targetWidth ∧ png.height = targetHeight then png
  else
    { width := targetWidth, height := targetHeight,
      data := mkData targetWidth targetHeight (fun x y c =>
        if y < png.height ∧ x < png.width then
          byteAt png.data ((png.width * y + x) * 4 + c)
        else 255) }

/-- DiffResult (src/types.ts lines 50-65). -/
structure DiffResult where
  diffPixels : Nat
  totalPixels : Nat
  diffPercentage : ℚ
  diffPath : String
  dimensionsDiffer : Bool
  beforeDimensions : Dimensions
  afterDimensions : Dimensions
deriving DecidableEq, Repr

/-- The filesystem seen by the diff module: a partial map from paths to
decoded PNGs.  fs.existsSync p is (fs p).isSome, and readPng p is the
carried image. -/
def FileSystem : Type := String → Option Png

/-- Lines 114-164 of compareScreenshots (src/diff.ts): the computation on
the two decoded images.  The two let-bindings img1/img2 are reassigned to
the padded images exactly as the source reassigns its let variables, and
beforeDimensions and afterDimensions read the reassigned bindings, exactly
as lines 162-163 do.  Writing the diff image to disk is modelled by the
diffPath field of the result. -/
def diffResultOf (img1 img2 : Png) (diffPath : String)
    (options : CompareOptions) : DiffResult :=
  let width := max img1.width img2.width
  let height := max img1.height img2.height
  let dimensionsDiffer : Bool :=
    img1.width != img2.width || img1.height != img2.height
  let img1 := if dimensionsDiffer then padImage img1 width height else img1
  let img2 := if dimensionsDiffer then padImage img2 width height else img2
  let diffPixels := pixelmatchCount img1.data img2.data width height options.threshold
  let totalPixels := width * height
  let diffPercentage : ℚ := ((diffPixels : ℚ) / (totalPixels : ℚ)) * 100
  { diffPixels := diffPixels
    totalPixels := totalPixels
    diffPercentage := diffPercentage
    diffPath := diffPath
    dimensionsDiffer := dimensionsDiffer
    beforeDimensions := { width := img1.width, height := img1.height }
    afterDimensions := { width := img2.width, height := img2.height } }

/-- compareScreenshots (src/diff.ts lines 94-165).  A missing input file is
the thrown Error, modelled as Except.error with the source's message; with
both files present the result is diffResultOf on the decoded images. -/
def compareScreenshots (fs : FileSystem) (beforePath afterPath diffPath : String)
    (options : CompareOptions) : Except String DiffResult :=
  match fs beforePath with
  | none => Except.error ("Before screenshot not found: " ++ beforePath)
  | some img1 =>
    match fs afterPath with
    | none => Except.error ("After screenshot not found: " ++ afterPath)
    | some img2 => Except.ok (diffResultOf img1 img2 diffPath options)

/-- UrlToScreenshot (src/types.ts lines 33-38). -/
structure UrlToScreenshot where
  url : String
  slug : String
  postType : String
  title : String
deriving DecidableEq, Repr

/-- ScreenshotResult (src/types.ts lines 40-47): the descriptor fields plus
the two artifact paths. -/
structure ScreenshotResult where
  url : String
  slug : String
  postType : String
  title : String
  desktopPath : String
  mobilePath : String
deriving DecidableEq, Repr

/-- The before/after sub-record of ComparisonResult (src/types.ts). -/
structure PathPair where
  desktopPath : String
  mobilePath : String
deriving DecidableEq, Repr

/-- The diff sub-record of ComparisonResult (src/types.ts). -/
structure DiffPair where
  desktop : DiffResult
  mobile : DiffResult
deriving DecidableEq, Repr

/-- ComparisonResult (src/types.ts lines 74-91). -/
structure ComparisonResult where
  url : String
  slug : String
  postType : String
  title : String
  before : PathPair
  after : PathPair
  diff : DiffPair
deriving DecidableEq, Repr

/-- The mode field of CookieConfig (src/types.ts lines 68-71). -/
inductive CookieMode
  | auto
  | custom
  | none
deriving DecidableEq, Repr

/-- CookieConfig (src/types.ts lines 68-71); customText is optional. -/
structure CookieConfig where
  mode : CookieMode
  customText : Option String := Option.none
deriving DecidableEq, Repr

/-- ProjectConfig (src/types.ts lines 93-103), without the wall-clock
timestamps and the derived comparisons field, which no embedded function
reads. -/
structure ProjectConfig where
  siteUrl : String
  projectFolder : String
  cookieConfig : CookieConfig
  urls : List UrlToScreenshot
  beforeScreenshots : List ScreenshotResult
  afterScreenshots : List ScreenshotResult
deriving DecidableEq, Repr

/-- path.join as used by the embedded code: every call site joins a
directory with a relative segment, which concatenates the two with one
separator. -/
def pathJoin (a b : String) : String := a ++ "/" ++ b

/-- The find call of generateDiffComparisons (src/index.ts lines 344-346):
the first after-record sharing slug and postType with the before-record. -/
def findAfter (afterScreenshots : List ScreenshotResult)
    (before : ScreenshotResult) : Option ScreenshotResult :=
  afterScreenshots.find?
    (fun a => a.slug == before.slug && a.postType == before.postType)

/-- Body of the try block of generateDiffComparisons (src/index.ts lines
355-408) for one matched pair: compare the desktop screenshots, then the
mobile screenshots, then build the ComparisonResult.  A comparison that
throws aborts the whole block (the catch only logs), so a pair whose
desktop diff succeeded but whose mobile diff failed contributes nothing. -/
def compareOnePair (fs : FileSystem) (config : ProjectConfig)
    (before after : ScreenshotResult) : Option ComparisonResult :=
  match compareScreenshots fs (pathJoin config.projectFolder before.desktopPath)
      (pathJoin config.projectFolder after.desktopPath)
      (pathJoin (pathJoin config.projectFolder "diff")
        (before.postType ++ "-" ++ before.slug ++ "-desktop-diff.png")) {} with
  | Except.error _ => Option.none
  | Except.ok desktopDiff =>
    match compareScreenshots fs (pathJoin config.projectFolder before.mobilePath)
        (pathJoin config.projectFolder after.mobilePath)
        (pathJoin (pathJoin config.projectFolder "diff")
          (before.postType ++ "-" ++ before.slug ++ "-mobile-diff.png")) {} with
    | Except.error _ => Option.none
    | Except.ok mobileDiff =>
      some { url := before.url, slug := before.slug, postType := before.postType,
             title := before.title,
             before := { desktopPath := before.desktopPath, mobilePath := before.mobilePath },
             after := { desktopPath := after.desktopPath, mobilePath := after.mobilePath },
             diff := { desktop := desktopDiff, mobile := mobileDiff } }

/-- Loop of generateDiffComparisons over the before-records (src/index.ts
lines 343-429): a before-record without an after-record of the same
(slug, postType) is skipped, a pair whose comparison throws is skipped with
the error logged, and every successful pair appends its ComparisonResult
to the accumulated list. -/
def diffComparisonsLoop (fs : FileSystem) (config : ProjectConfig) :
    List ScreenshotResult → List ComparisonResult
  | [] => []
  | b :: rest =>
    match findAfter config.afterScreenshots b with
    | Option.none => diffComparisonsLoop fs config rest
    | some a =>
      match compareOnePair fs config b a with
      | Option.none => diffComparisonsLoop fs config rest
      | some c => c :: diffComparisonsLoop fs config rest

/-- generateDiffComparisons (src/index.ts lines 332-432). -/
def generateDiffComparisons (fs : FileSystem) (config : ProjectConfig) :
    List ComparisonResult :=
  diffComparisonsLoop fs config config.beforeScreenshots

/-- Is c one of the characters the sanitizer keeps: a-z, 0-9 or the hyphen
(the character class of the first regex of sanitizeFilename). -/
def isKeptChar (c : Char) : Bool :=
  (('a' ≤ c) && (c ≤ 'z')) || (('0' ≤ c) && (c ≤ '9')) || (c == '-')

/-- The second .replace of sanitizeFilename: every maximal run of hyphens
collapses to a single hyphen. -/
def collapseHyphens : List Char → List Char
  | [] => []
  | [c] => [c]
  | a :: b :: t =>
    if a = '-' ∧ b = '-' then collapseHyphens (b :: t)
    else a :: collapseHyphens (b :: t)

/-- Leading half of the third .replace of sanitizeFilename: the global
regex matching a leading or a trailing hyphen removes at most one of each
on the collapsed strings it is actually applied to. -/
def dropLeadingHyphen : List Char → List Char
  | [] => []
  | a :: t => if a = '-' then t else a :: t

/-- Trailing half of the third .replace of sanitizeFilename. -/
def dropTrailingHyphen (l : List Char) : List Char :=
  (dropLeadingHyphen l.reverse).reverse

/-- sanitizeFilename (src/screenshot.ts lines 40-47) up to but excluding
the final .slice(0, 50): lower-case, replace every character outside
[a-z0-9-] by a hyphen, collapse hyphen runs, trim a leading and a trailing
hyphen.  JavaScript toLowerCase is modelled per character by Char.toLower;
all strings the tool feeds in are ASCII, where the two agree. -/
def sanitizePreTruncate (name : String) : List Char :=
  dropTrailingHyphen (dropLeadingHyphen (collapseHyphens
    ((name.data.map Char.toLower).map (fun c => if isKeptChar c then c else '-'))))

/-- sanitizeFilename continued: the final .slice(0, 50). -/
def sanitizeFilename (name : String) : String :=
  String.mk (List.take 50 (sanitizePreTruncate name))

/-- Replacement exactly as the specification words it ("replaces any non
[a-z0-9-] run with a single hyphen"): only maximal runs of characters
outside the class become one hyphen; pre-existing hyphens are untouched.
The flag records whether the scan is inside such a run.  Written from the
spec sentence, for comparison with the source's sanitizeFilename. -/
def specReplaceRunsAux (skipping : Bool) : List Char → List Char
  | [] => []
  | c :: t =>
    if isKeptChar c then c :: specReplaceRunsAux false t
    else if skipping then specReplaceRunsAux true t
    else '-' :: specReplaceRunsAux true t

/-- Run replacement as the specification words it, started outside a run. -/
def specReplaceRuns (l : List Char) : List Char :=
  specReplaceRunsAux false l

/-- Trimming as the specification words it: all leading and all trailing
hyphens removed. -/
def specTrimHyphens (l : List Char) : List Char :=
  ((l.dropWhile (fun c => c == '-')).reverse.dropWhile (fun c => c == '-')).reverse

/-- The sanitization pipeline exactly as the specification words it, used
to compare the spec sentence against the source implementation. -/
def specSanitizeFilename (name : String) : String :=
  String.mk (List.take 50 (specTrimHyphens (specReplaceRuns
    (name.data.map Char.toLower))))

/-- COMMON_COOKIE_TEXTS (src/screenshot.ts lines 14-35). -/
def COMMON_COOKIE_TEXTS : List String :=
  ["Alle akzeptieren", "Alles akzeptieren", "Akzeptieren", "Zustimmen", "OK",
   "Einverstanden", "Verstanden", "Alle Cookies akzeptieren",
   "Accept", "Accept All", "Accept all cookies", "Agree", "I Agree", "Allow",
   "Allow all", "Okay", "Got it"]

/-- The three matching strategies of handleCookieBanner, in the order the
source tries them for each candidate text. -/
inductive CookieStrategy
  | roleButton
  | exactText
  | looseText
deriving DecidableEq, Repr

/-- Abstraction of the page for overlay dismissal: clickSucceeds t s is
true when strategy s finds a visible match for candidate text t and the
click on it succeeds.  A locator error, a timeout or an invisible or absent
match make it false; the source catches those per strategy and falls
through to the next one. -/
structure CookiePage where
  clickSucceeds : String → CookieStrategy → Bool

/-- The candidate list of handleCookieBanner (src/screenshot.ts lines
107-109).  The JavaScript truthiness test on customText means custom mode
without a text, or with the empty text, falls back to the built-in list. -/
def cookieSearchTexts (config : CookieConfig) : List String :=
  match config.customText with
  | some t =>
    if config.mode = CookieMode.custom ∧ t ≠ "" then [t] else COMMON_COOKIE_TEXTS
  | Option.none => COMMON_COOKIE_TEXTS

/-- One candidate text of handleCookieBanner: the three strategies in
order, instrumented with the trace of attempted (text, strategy) pairs,
and the strategy whose click succeeded, if any. -/
def tryCookieText (page : CookiePage) (t : String) :
    List (String × CookieStrategy) × Option CookieStrategy :=
  if page.clickSucceeds t CookieStrategy.roleButton then
    ([(t, CookieStrategy.roleButton)], some CookieStrategy.roleButton)
  else if page.clickSucceeds t CookieStrategy.exactText then
    ([(t, CookieStrategy.roleButton), (t, CookieStrategy.exactText)],
      some CookieStrategy.exactText)
  else if page.clickSucceeds t CookieStrategy.looseText then
    ([(t, CookieStrategy.roleButton), (t, CookieStrategy.exactText),
      (t, CookieStrategy.looseText)], some CookieStrategy.looseText)
  else
    ([(t, CookieStrategy.roleButton), (t, CookieStrategy.exactText),
      (t, CookieStrategy.looseText)], Option.none)

/-- Candidate loop of handleCookieBanner (src/screenshot.ts lines 113-152):
on the first strategy that clicks, the whole loop returns (the source's
early return statements); otherwise the next candidate text is tried.  The
first component is the trace of attempts in order, the second the click
performed, if any. -/
def cookieBannerLoop (page : CookiePage) :
    List String → List (String × CookieStrategy) × Option (String × CookieStrategy)
  | [] => ([], Option.none)
  | t :: rest =>
    match tryCookieText page t with
    | (tr, some s) => (tr, some (t, s))
    | (tr, Option.none) =>
      let r := cookieBannerLoop page rest
      (tr ++ r.1, r.2)

/-- handleCookieBanner (src/screenshot.ts lines 94-169): an immediate
return in mode none, otherwise the candidate loop over cookieSearchTexts. -/
def handleCookieBanner (page : CookiePage) (config : CookieConfig) :
    List (String × CookieStrategy) × Option (String × CookieStrategy) :=
  if config.mode = CookieMode.none then ([], Option.none)
  else cookieBannerLoop page (cookieSearchTexts config)

/-- The two viewport presets (VIEWPORTS in src/types.ts lines 111-114). -/
inductive ViewportType
  | desktop
  | mobile
deriving DecidableEq, Repr

/-- Viewport sizes (src/types.ts lines 111-114). -/
def VIEWPORTS : ViewportType → Dimensions
  | ViewportType.desktop => { width := 1920, height := 1080 }
  | ViewportType.mobile => { width := 390, height := 844 }

/-- The capture phase. -/
inductive Phase
  | before
  | after
deriving DecidableEq, Repr

/-- Folder name of a phase, as interpolated into the artifact paths. -/
def Phase.folderName : Phase → String
  | Phase.before => "before"
  | Phase.after => "after"

/-- Abstraction of the ScreenshotManager's state for one batch: browserInit
is whether init() has set this.browser, and captureOutcome url viewport is
the success or failure (navigation timeout, crashed renderer, ...) of the
whole takeScreenshot call (src/screenshot.ts lines 215-245) for that url
and viewport. -/
structure CaptureEnv where
  browserInit : Bool
  captureOutcome : String → ViewportType → Except String Unit

/-- Everything observable about one screenshotUrl call: the returned
record, whether the browsing context was closed (the finally block), and
the capture error that was caught and logged, if any. -/
structure ScreenshotRun where
  result : ScreenshotResult
  contextClosed : Bool
  loggedError : Option String
deriving DecidableEq, Repr

/-- path.relative(projectFolder, p) for the paths screenshotUrl builds,
which are always projectFolder ++ "/" ++ rest: it returns rest. -/
def pathRelative (base p : String) : String :=
  p.drop (base.length + 1)

/-- screenshotUrl (src/screenshot.ts lines 250-292).  The initial guard
throws when init() has not run; afterwards the desktop and then the mobile
takeScreenshot run inside the try block, whose catch only logs, the
finally closes the context, and the record spread from urlInfo is returned
unconditionally. -/
def screenshotUrl (env : CaptureEnv) (projectFolder : String)
    (urlInfo : UrlToScreenshot) (phase : Phase) : Except String ScreenshotRun :=
  if !env.browserInit then
    Except.error "Browser not initialized. Call init() first."
  else
    let phaseFolder := pathJoin projectFolder phase.folderName
    let baseFilename :=
      sanitizeFilename urlInfo.postType ++ "-" ++ sanitizeFilename urlInfo.slug
    let desktopPath := pathJoin phaseFolder (baseFilename ++ "-desktop.png")
    let mobilePath := pathJoin phaseFolder (baseFilename ++ "-mobile.png")
    let captured : Except String Unit := do
      env.captureOutcome urlInfo.url ViewportType.desktop
      env.captureOutcome urlInfo.url ViewportType.mobile
    Except.ok
      { result :=
          { url := urlInfo.url, slug := urlInfo.slug, postType := urlInfo.postType,
            title := urlInfo.title,
            desktopPath := pathRelative projectFolder desktopPath,
            mobilePath := pathRelative projectFolder mobilePath }
        contextClosed := true
        loggedError :=
          match captured with
          | Except.ok _ => Option.none
          | Except.error e => some e }

/-- screenshotAll (src/screenshot.ts lines 297-314): the strictly
sequential loop over the url list, each result pushed in order. -/
def screenshotAll (env : CaptureEnv) (projectFolder : String)
    (urls : List UrlToScreenshot) (phase : Phase) :
    Except String (List ScreenshotRun) :=
  match urls with
  | [] => Except.ok []
  | u :: rest => do
    let r ← screenshotUrl env projectFolder u phase
    let rs ← screenshotAll env projectFolder rest phase
    Except.ok (r :: rs)

/-! ### Buffer indexing lemmas -/

/-- flatMap over pointwise equal functions gives equal lists. -/
theorem flatMap_congr_of_mem {α β : Type} {l : List α} {f g : α → List β}
    (h : ∀ a ∈ l, f a = g a) : l.flatMap f = l.flatMap g := by
  induction l with
  | nil => rfl
  | cons a t ih =>
    rw [List.flatMap_cons, List.flatMap_cons, h a (by simp),
      ih (fun b hb => h b (by simp [hb]))]

/-- Length of a flatMap all of whose pieces have length L. -/
theorem flatMap_length_const {α β : Type} (l : List α) (f : α → List β) (L : Nat)
    (h : ∀ a ∈ l, (f a).length = L) : (l.flatMap f).length = l.length * L := by
  induction l with
  | nil => simp
  | cons a t ih =>
    rw [List.flatMap_cons, List.length_append, h a (by simp),
      ih (fun b hb => h b (by simp [hb])), List.length_cons]
    ring

/-- Indexing into a flatMap over List.range whose pieces all have length
L: position y * L + j falls in piece y at offset j. -/
theorem flatMap_range_getD (g : Nat → List Nat) (L : Nat)
    (hg : ∀ i, (g i).length = L) (d : Nat) :
    ∀ h y j, y < h → j < L →
      ((List.range h).flatMap g).getD (y * L + j) d = (g y).getD j d := by
  intro h
  induction h with
  | zero =>
    intro y j hy _
    omega
  | succ m ih =>
    intro y j hy hj
    rw [List.range_succ, List.flatMap_append]
    have hlen : ((List.range m).flatMap g).length = m * L := by
      rw [flatMap_length_const _ _ L (fun a _ => hg a), List.length_range]
    rcases Nat.lt_or_ge y m with h' | h'
    · have hb : y * L + j < ((List.range m).flatMap g).length := by
        rw [hlen]
        have h1 : y * L + j < (y + 1) * L := by rw [Nat.succ_mul]; omega
        exact Nat.lt_of_lt_of_le h1 (Nat.mul_le_mul_right L h')
      rw [List.getD_append _ _ _ _ hb]
      exact ih y j h' hj
    · have hy' : y = m := by omega
      subst hy'
      have hb : ((List.range y).flatMap g).length ≤ y * L + j := by
        rw [hlen]
        exact Nat.le_add_right _ _
      rw [List.getD_append_right _ _ _ _ hb, hlen]
      simp

/-- Byte (x, y, c) of a buffer built by mkData. -/
theorem mkData_byteAt {w h x y c : Nat} (f : Nat → Nat → Nat → Nat)
    (hx : x < w) (hy : y < h) (hc : c < 4) :
    byteAt (mkData w h f) ((w * y + x) * 4 + c) = f x y c := by
  have hrow : ∀ i, (rowData w f i).length = w * 4 := by
    intro i
    unfold rowData
    rw [flatMap_length_const (List.range w) (fun x => pixelBytes f x i) 4
      (fun a _ => rfl), List.length_range]
  have hidx : (w * y + x) * 4 + c = y * (w * 4) + (x * 4 + c) := by ring
  unfold byteAt mkData
  rw [hidx,
    flatMap_range_getD (rowData w f) (w * 4) hrow 0 h y (x * 4 + c) hy (by omega)]
  unfold rowData
  rw [flatMap_range_getD (fun x => pixelBytes f x y) 4 (fun i => rfl) 0 w x c hx hc]
  interval_cases c <;> rfl

/-- Two mkData buffers of the same size agree when the describing functions
agree on every in-range byte. -/
theorem mkData_congr {w h : Nat} {f g : Nat → Nat → Nat → Nat}
    (hfg : ∀ x < w, ∀ y < h, ∀ c < 4, f x y c = g x y c) :
    mkData w h f = mkData w h g := by
  unfold mkData
  apply flatMap_congr_of_mem
  intro y hy
  unfold rowData
  apply flatMap_congr_of_mem
  intro x hx
  have hy' := List.mem_range.mp hy
  have hx' := List.mem_range.mp hx
  unfold pixelBytes
  rw [hfg x hx' y hy' 0 (by omega), hfg x hx' y hy' 1 (by omega),
    hfg x hx' y hy' 2 (by omega), hfg x hx' y hy' 3 (by omega)]

/-! ### padImage lemmas -/

/-- padImage always yields the target width. -/
theorem padImage_width (png : Png) (tw th : Nat) : (padImage png tw th).width = tw := by
  unfold padImage
  split
  · next hwh => exact hwh.1
  · rfl

/-- padImage always yields the target height. -/
theorem padImage_height (png : Png) (tw th : Nat) : (padImage png tw th).height = th := by
  unfold padImage
  split
  · next hwh => exact hwh.2
  · rfl

/-- Pixel-level description of padImage: inside the source rectangle the
source byte, outside it fully opaque white. -/
theorem padImage_byteAt (png : Png) {tw th x y c : Nat}
    (hx : x < tw) (hy : y < th) (hc : c < 4) :
    byteAt (padImage png tw th).data ((tw * y + x) * 4 + c) =
      if y < png.height ∧ x < png.width then
        byteAt png.data ((png.width * y + x) * 4 + c)
      else 255 := by
  unfold padImage
  split
  · next hwh =>
    obtain ⟨hw, hh⟩ := hwh
    subst hw
    subst hh
    rw [if_pos ⟨hy, hx⟩]
  · next =>
    exact mkData_byteAt _ hx hy hc

/-! ### pixelmatch lemmas -/

/-- pixelmatch on two identical buffers reports zero different pixels. -/
theorem pixelmatchCount_self (a : List Nat) (w h : Nat) (t : ℚ) :
    pixelmatchCount a a w h t = 0 := by
  unfold pixelmatchCount
  rw [if_pos rfl]

/-- A width x height canvas has height * width pixel positions. -/
theorem pixelPositions_length (w h : Nat) : (pixelPositions w h).length = h * w := by
  unfold pixelPositions
  rw [flatMap_length_const _ _ w (fun a _ => by simp), List.length_range]

/-- The pixelmatch count never exceeds the number of canvas pixels. -/
theorem pixelmatchCount_le (a b : List Nat) (w h : Nat) (t : ℚ) :
    pixelmatchCount a b w h t ≤ w * h := by
  unfold pixelmatchCount
  split
  · omega
  · calc List.countP _ (pixelPositions w h) ≤ (pixelPositions w h).length :=
        List.countP_le_length _
      _ = h * w := pixelPositions_length w h
      _ = w * h := Nat.mul_comm h w

/-! ### diffResultOf field lemmas -/

/-- totalPixels is the product of the canvas dimensions. -/
theorem diffResultOf_totalPixels (i1 i2 : Png) (dp : String) (o : CompareOptions) :
    (diffResultOf i1 i2 dp o).totalPixels =
      max i1.width i2.width * max i1.height i2.height := rfl

/-- dimensionsDiffer is the width/height inequality test of line 117. -/
theorem diffResultOf_dimensionsDiffer (i1 i2 : Png) (dp : String) (o : CompareOptions) :
    (diffResultOf i1 i2 dp o).dimensionsDiffer =
      (i1.width != i2.width || i1.height != i2.height) := rfl

/-- diffPercentage is recomputed from the other two fields of the same
record, exactly as line 145 computes it from diffPixels and totalPixels. -/
theorem diffResultOf_diffPercentage (i1 i2 : Png) (dp : String) (o : CompareOptions) :
    (diffResultOf i1 i2 dp o).diffPercentage =
      (((diffResultOf i1 i2 dp o).diffPixels : ℚ) /
        ((diffResultOf i1 i2 dp o).totalPixels : ℚ)) * 100 := rfl

/-- diffPixels is the pixelmatch count on the normalized buffers. -/
theorem diffResultOf_diffPixels (i1 i2 : Png) (dp : String) (o : CompareOptions) :
    (diffResultOf i1 i2 dp o).diffPixels =
      pixelmatchCount
        (if i1.width != i2.width || i1.height != i2.height then
          padImage i1 (max i1.width i2.width) (max i1.height i2.height) else i1).data
        (if i1.width != i2.width || i1.height != i2.height then
          padImage i2 (max i1.width i2.width) (max i1.height i2.height) else i2).data
        (max i1.width i2.width) (max i1.height i2.height) o.threshold := rfl

/-- beforeDimensions reads the reassigned (possibly padded) first image. -/
theorem diffResultOf_beforeDimensions (i1 i2 : Png) (dp : String) (o : CompareOptions) :
    (diffResultOf i1 i2 dp o).beforeDimensions =
      { width := (if i1.width != i2.width || i1.height != i2.height then
          padImage i1 (max i1.width i2.width) (max i1.height i2.height) else i1).width,
        height := (if i1.width != i2.width || i1.height != i2.height then
          padImage i1 (max i1.width i2.width) (max i1.height i2.height) else i1).height } := rfl

/-- afterDimensions reads the reassigned (possibly padded) second image. -/
theorem diffResultOf_afterDimensions (i1 i2 : Png) (dp : String) (o : CompareOptions) :
    (diffResultOf i1 i2 dp o).afterDimensions =
      { width := (if i1.width != i2.width || i1.height != i2.height then
          padImage i2 (max i1.width i2.width) (max i1.height i2.height) else i2).width,
        height := (if i1.width != i2.width || i1.height != i2.height then
          padImage i2 (max i1.width i2.width) (max i1.height i2.height) else i2).height } := rfl

/-- compareScreenshots succeeds exactly on the images the filesystem holds. -/
theorem compareScreenshots_ok {fs : FileSystem} {b a : String} {i1 i2 : Png}
    (dp : String) (o : CompareOptions) (h1 : fs b = some i1) (h2 : fs a = some i2) :
    compareScreenshots fs b a dp o = Except.ok (diffResultOf i1 i2 dp o) := by
  unfold compareScreenshots
  rw [h1, h2]

/-! ### Concrete images used to evaluate the diff engine -/

/-- Channel values of a fully black, fully opaque pixel. -/
def blackPixel (c : Nat) : Nat := if c = 3 then 255 else 0

/-- A 100 x 100 fully black image. -/
def pngBlack100 : Png :=
  { width := 100, height := 100, data := mkData 100 100 (fun _ _ c => blackPixel c) }

/-- A 100 x 150 image whose first 100 rows are fully black and whose last
50 rows are fully white. -/
def pngTall150 : Png :=
  { width := 100, height := 150,
    data := mkData 100 150 (fun _ y c => if y < 100 then blackPixel c else 255) }

/-- Filesystem holding the two images of the specification's padding
example. -/
def fsC3 : FileSystem := fun p =>
  if p = "before.png" then some pngBlack100
  else if p = "after.png" then some pngTall150
  else Option.none

/-- Padding the 100 x 100 black image onto the 100 x 150 canvas gives
exactly the black-then-white tall image. -/
theorem padBlack100_data : (padImage pngBlack100 100 150).data = pngTall150.data := by
  unfold padImage
  rw [if_neg (by decide)]
  show mkData 100 150 _ = mkData 100 150 _
  apply mkData_congr
  intro x hx y hy c hc
  by_cases hy' : y < 100
  · rw [if_pos (show y < pngBlack100.height ∧ x < pngBlack100.width from ⟨hy', hx⟩),
      if_pos hy']
    exact mkData_byteAt _ hx hy' hc
  · rw [if_neg (fun hcon => hy' hcon.1), if_neg hy']

/-- The 100 x 150 image is already canvas-sized, so padImage returns it
unchanged. -/
theorem padTall150_self : padImage pngTall150 100 150 = pngTall150 := by
  unfold padImage
  rw [if_pos ⟨rfl, rfl⟩]

/-- The diff of the padding example counts zero different pixels. -/
theorem diffC3_diffPixels :
    (diffResultOf pngBlack100 pngTall150 "diff.png" {}).diffPixels = 0 := by
  rw [diffResultOf_diffPixels]
  rw [show (pngBlack100.width != pngTall150.width ||
      pngBlack100.height != pngTall150.height) = true from by decide]
  rw [if_pos rfl, if_pos rfl]
  show pixelmatchCount (padImage pngBlack100 100 150).data
    (padImage pngTall150 100 150).data 100 150 _ = 0
  rw [padTall150_self, padBlack100_data]
  exact pixelmatchCount_self _ _ _ _

/-- C3: when the two input sizes differ, compareScreenshots compares on the
canvas of element-wise maximal dimensions, places each image at the
top-left origin, pads the remainder with fully opaque white and reports
dimensionsDiffer = true; in particular diffing a 100 x 100 black image
against a 100 x 150 image that is black for 100 rows and white below
yields diffPixels = 0 and totalPixels = 15000. -/
theorem C3_dimension_normalization :
    (∀ (png : Png) (tw th x y c : Nat), x < tw → y < th → c < 4 →
      byteAt (padImage png tw th).data ((tw * y + x) * 4 + c) =
        if y < png.height ∧ x < png.width then
          byteAt png.data ((png.width * y + x) * 4 + c)
        else 255) ∧
    (∀ (fs : FileSystem) (b a dp : String) (o : CompareOptions) (i1 i2 : Png)
      (r : DiffResult), fs b = some i1 → fs a = some i2 →
      (i1.width ≠ i2.width ∨ i1.height ≠ i2.height) →
      compareScreenshots fs b a dp o = Except.ok r →
      r.dimensionsDiffer = true ∧
      r.totalPixels = max i1.width i2.width * max i1.height i2.height ∧
      r.diffPixels = pixelmatchCount
        (padImage i1 (max i1.width i2.width) (max i1.height i2.height)).data
        (padImage i2 (max i1.width i2.width) (max i1.height i2.height)).data
        (max i1.width i2.width) (max i1.height i2.height) o.threshold) ∧
    (compareScreenshots fsC3 "before.png" "after.png" "diff.png" {} =
        Except.ok (diffResultOf pngBlack100 pngTall150 "diff.png" {}) ∧
      (diffResultOf pngBlack100 pngTall150 "diff.png" {}).diffPixels = 0 ∧
      (diffResultOf pngBlack100 pngTall150 "diff.png" {}).totalPixels = 15000) := by
  refine ⟨fun png tw th x y c hx hy hc => padImage_byteAt png hx hy hc,
    fun fs b a dp o i1 i2 r h1 h2 hne hr => ?_,
    compareScreenshots_ok _ _ rfl rfl, diffC3_diffPixels, rfl⟩
  have hok := (compareScreenshots_ok dp o h1 h2).symm.trans hr
  injection hok with hok
  subst hok
  have hdd : (i1.width != i2.width || i1.height != i2.height) = true := by
    rw [Bool.or_eq_true, bne_iff_ne, bne_iff_ne]
    exact hne
  refine ⟨?_, diffResultOf_totalPixels i1 i2 dp o, ?_⟩
  · rw [diffResultOf_dimensionsDiffer]
    exact hdd
  · rw [diffResultOf_diffPixels, hdd, if_pos rfl, if_pos rfl]

/-- Witness for C3: the general dimension statement evaluated on the
specification's 100 x 100 versus 100 x 150 example. -/
theorem C3_witness :
    (diffResultOf pngBlack100 pngTall150 "diff.png" {}).dimensionsDiffer = true ∧
    (diffResultOf pngBlack100 pngTall150 "diff.png" {}).totalPixels =
      max pngBlack100.width pngTall150.width *
        max pngBlack100.height pngTall150.height ∧
    (diffResultOf pngBlack100 pngTall150 "diff.png" {}).diffPixels =
      pixelmatchCount
        (padImage pngBlack100 (max pngBlack100.width pngTall150.width)
          (max pngBlack100.height pngTall150.height)).data
        (padImage pngTall150 (max pngBlack100.width pngTall150.width)
          (max pngBlack100.height pngTall150.height)).data
        (max pngBlack100.width pngTall150.width)
        (max pngBlack100.height pngTall150.height)
        ({} : CompareOptions).threshold :=
  C3_dimension_normalization.2.1 fsC3 "before.png" "after.png" "diff.png" {}
    pngBlack100 pngTall150 _ rfl rfl (Or.inr (by decide))
    (compareScreenshots_ok _ _ rfl rfl)

/-! ### C1: reported dimensions -/

/-- A 1 x 1 fully black image. -/
def pngBeforeC1 : Png := { width := 1, height := 1, data := [0, 0, 0, 255] }

/-- A 2 x 1 image: one black pixel, then one white pixel. -/
def pngAfterC1 : Png :=
  { width := 2, height := 1, data := [0, 0, 0, 255, 255, 255, 255, 255] }

/-- Filesystem holding a 1 x 1 before image and a 2 x 1 after image. -/
def fsC1 : FileSystem := fun p =>
  if p = "b.png" then some pngBeforeC1
  else if p = "a.png" then some pngAfterC1
  else Option.none

/-- C1 fails on the code: for a 1 x 1 before image and a 2 x 1 after image
the returned beforeDimensions is the padded canvas size 2 x 1, not the
original 1 x 1 — compareScreenshots reassigns img1/img2 to the padded
images before reading their dimensions, so when dimensionsDiffer is true
both reported dimension fields are the canvas size. -/
theorem C1_reported_dimensions_bug :
    pngBeforeC1.width = 1 ∧ pngBeforeC1.height = 1 ∧
    fsC1 "b.png" = some pngBeforeC1 ∧
    compareScreenshots fsC1 "b.png" "a.png" "d.png" {} =
      Except.ok (diffResultOf pngBeforeC1 pngAfterC1 "d.png" {}) ∧
    (diffResultOf pngBeforeC1 pngAfterC1 "d.png" {}).dimensionsDiffer = true ∧
    (diffResultOf pngBeforeC1 pngAfterC1 "d.png" {}).beforeDimensions =
      { width := 2, height := 1 } ∧
    (diffResultOf pngBeforeC1 pngAfterC1 "d.png" {}).beforeDimensions ≠
      { width := 1, height := 1 } := by
  refine ⟨rfl, rfl, rfl, compareScreenshots_ok _ _ rfl rfl, by decide, by decide, by decide⟩

/-! ### C6 and C7: diff statistics -/

/-- C6: on every successful comparison 0 ≤ diffPixels ≤ totalPixels,
totalPixels is the product of the normalized canvas dimensions (the
element-wise maxima of the two inputs), and diffPercentage is exactly
100 * diffPixels / totalPixels in rational arithmetic. -/
theorem C6_statistics (fs : FileSystem) (b a dp : String) (o : CompareOptions)
    (i1 i2 : Png) (r : DiffResult) (h1 : fs b = some i1) (h2 : fs a = some i2)
    (hr : compareScreenshots fs b a dp o = Except.ok r) :
    0 ≤ r.diffPixels ∧ r.diffPixels ≤ r.totalPixels ∧
    r.totalPixels = max i1.width i2.width * max i1.height i2.height ∧
    r.diffPercentage = 100 * (r.diffPixels : ℚ) / (r.totalPixels : ℚ) := by
  have hok := (compareScreenshots_ok dp o h1 h2).symm.trans hr
  injection hok with hok
  subst hok
  refine ⟨Nat.zero_le _, ?_, diffResultOf_totalPixels i1 i2 dp o, ?_⟩
  · rw [diffResultOf_diffPixels, diffResultOf_totalPixels]
    exact pixelmatchCount_le _ _ _ _ _
  · rw [diffResultOf_diffPercentage]
    ring

/-- A 1 x 1 fully white image. -/
def pngWhite1 : Png := { width := 1, height := 1, data := [255, 255, 255, 255] }

/-- Filesystem holding the same 1 x 1 white image under both paths. -/
def fsTiny : FileSystem := fun p =>
  if p = "b.png" then some pngWhite1
  else if p = "a.png" then some pngWhite1
  else Option.none

/-- Witness for C6: the statistics invariants evaluated on a concrete
comparison of two 1 x 1 images. -/
theorem C6_witness :
    0 ≤ (diffResultOf pngWhite1 pngWhite1 "d.png" {}).diffPixels ∧
    (diffResultOf pngWhite1 pngWhite1 "d.png" {}).diffPixels ≤
      (diffResultOf pngWhite1 pngWhite1 "d.png" {}).totalPixels ∧
    (diffResultOf pngWhite1 pngWhite1 "d.png" {}).totalPixels =
      max pngWhite1.width pngWhite1.width * max pngWhite1.height pngWhite1.height ∧
    (diffResultOf pngWhite1 pngWhite1 "d.png" {}).diffPercentage =
      100 * ((diffResultOf pngWhite1 pngWhite1 "d.png" {}).diffPixels : ℚ) /
        ((diffResultOf pngWhite1 pngWhite1 "d.png" {}).totalPixels : ℚ) :=
  C6_statistics fsTiny "b.png" "a.png" "d.png" {} pngWhite1 pngWhite1 _ rfl rfl
    (compareScreenshots_ok _ _ rfl rfl)

/-- C7: on byte-identical inputs of equal dimensions the diff engine
reports zero different pixels and dimensionsDiffer = false. -/
theorem C7_identical (fs : FileSystem) (b a dp : String) (o : CompareOptions)
    (i1 i2 : Png) (r : DiffResult) (h1 : fs b = some i1) (h2 : fs a = some i2)
    (hw : i1.width = i2.width) (hh : i1.height = i2.height) (hd : i1.data = i2.data)
    (hr : compareScreenshots fs b a dp o = Except.ok r) :
    r.diffPixels = 0 ∧ r.dimensionsDiffer = false := by
  have hok := (compareScreenshots_ok dp o h1 h2).symm.trans hr
  injection hok with hok
  subst hok
  have hdd : (i1.width != i2.width || i1.height != i2.height) = false := by
    rw [hw, hh]
    simp
  constructor
  · rw [diffResultOf_diffPixels, hdd]
    show pixelmatchCount i1.data i2.data _ _ _ = 0
    rw [hd]
    exact pixelmatchCount_self _ _ _ _
  · rw [diffResultOf_dimensionsDiffer, hdd]

/-- Witness for C7: two identical 1 x 1 white images. -/
theorem C7_witness :
    (diffResultOf pngWhite1 pngWhite1 "d.png" {}).diffPixels = 0 ∧
    (diffResultOf pngWhite1 pngWhite1 "d.png" {}).dimensionsDiffer = false :=
  C7_identical fsTiny "b.png" "a.png" "d.png" {} pngWhite1 pngWhite1 _ rfl rfl
    rfl rfl rfl (compareScreenshots_ok _ _ rfl rfl)

/-! ### C2: pairing by identity key -/

/-- The identity key (postType, slug) of a screenshot record. -/
def screenKey (s : ScreenshotResult) : String × String := (s.postType, s.slug)

/-- The identity key (postType, slug) of a comparison record. -/
def compKey (c : ComparisonResult) : String × String := (c.postType, c.slug)

/-- compareScreenshots succeeds whenever both files exist. -/
theorem compareScreenshots_isOk {fs : FileSystem} {p q : String} (dp : String)
    (o : CompareOptions) (hp : (fs p).isSome) (hq : (fs q).isSome) :
    ∃ r, compareScreenshots fs p q dp o = Except.ok r := by
  cases hp' : fs p with
  | none => rw [hp'] at hp; cases hp
  | some i1 =>
    cases hq' : fs q with
    | none => rw [hq'] at hq; cases hq
    | some i2 => exact ⟨_, compareScreenshots_ok dp o hp' hq'⟩

/-- When every file exists, compareOnePair produces a comparison record
that carries the before-record's identity key. -/
theorem compareOnePair_eq_some {fs : FileSystem} (config : ProjectConfig)
    (b a : ScreenshotResult) (hfs : ∀ p, (fs p).isSome) :
    ∃ c, compareOnePair fs config b a = some c ∧
      c.postType = b.postType ∧ c.slug = b.slug := by
  obtain ⟨r1, hr1⟩ := compareScreenshots_isOk
    (pathJoin (pathJoin config.projectFolder "diff")
      (b.postType ++ "-" ++ b.slug ++ "-desktop-diff.png")) {}
    (hfs (pathJoin config.projectFolder b.desktopPath))
    (hfs (pathJoin config.projectFolder a.desktopPath))
  obtain ⟨r2, hr2⟩ := compareScreenshots_isOk
    (pathJoin (pathJoin config.projectFolder "diff")
      (b.postType ++ "-" ++ b.slug ++ "-mobile-diff.png")) {}
    (hfs (pathJoin config.projectFolder b.mobilePath))
    (hfs (pathJoin config.projectFolder a.mobilePath))
  refine ⟨{ url := b.url, slug := b.slug, postType := b.postType,
            title := b.title,
            before := { desktopPath := b.desktopPath, mobilePath := b.mobilePath },
            after := { desktopPath := a.desktopPath, mobilePath := a.mobilePath },
            diff := { desktop := r1, mobile := r2 } }, ?_, rfl, rfl⟩
  unfold compareOnePair
  rw [hr1, hr2]

/-- findAfter finds a record exactly when the before-record's key occurs
among the after-records' keys. -/
theorem findAfter_isSome_iff (afters : List ScreenshotResult) (b : ScreenshotResult) :
    (findAfter afters b).isSome ↔ screenKey b ∈ afters.map screenKey := by
  unfold findAfter
  rw [List.find?_isSome]
  constructor
  · rintro ⟨x, hx, hpx⟩
    rw [Bool.and_eq_true, beq_iff_eq, beq_iff_eq] at hpx
    refine List.mem_map.mpr ⟨x, hx, ?_⟩
    unfold screenKey
    rw [hpx.1, hpx.2]
  · intro hmem
    obtain ⟨x, hx, hkey⟩ := List.mem_map.mp hmem
    refine ⟨x, hx, ?_⟩
    rw [Bool.and_eq_true, beq_iff_eq, beq_iff_eq]
    unfold screenKey at hkey
    rw [Prod.mk.injEq] at hkey
    exact ⟨hkey.2, hkey.1⟩

/-- Key-level behaviour of the pairing loop when every file exists: the
keys of the produced comparisons are exactly the before-keys that also
occur among the after-keys, in order. -/
theorem diffComparisonsLoop_map_key (fs : FileSystem) (config : ProjectConfig)
    (hfs : ∀ p, (fs p).isSome) :
    ∀ l, (diffComparisonsLoop fs config l).map compKey =
      (l.map screenKey).filter
        (fun k => decide (k ∈ config.afterScreenshots.map screenKey)) := by
  intro l
  induction l with
  | nil => rfl
  | cons b rest ih =>
    cases hfa : findAfter config.afterScreenshots b with
    | none =>
      have hnot : screenKey b ∉ config.afterScreenshots.map screenKey := by
        rw [← findAfter_isSome_iff, hfa]
        simp
      simp only [diffComparisonsLoop, hfa, List.map_cons, List.filter_cons]
      rw [if_neg (by simpa using hnot)]
      exact ih
    | some a =>
      have hmem : screenKey b ∈ config.afterScreenshots.map screenKey := by
        rw [← findAfter_isSome_iff, hfa]
        rfl
      obtain ⟨c, hc, hpt, hsl⟩ := compareOnePair_eq_some config b a hfs
      simp only [diffComparisonsLoop, hfa, hc, List.map_cons, List.filter_cons]
      rw [if_pos (by simpa using hmem)]
      rw [ih]
      congr 1
      unfold compKey screenKey
      rw [hpt, hsl]

/-- C2: with every artifact present and distinct before-keys, the
comparison set holds exactly one record per (postType, slug) key present
in both phases — its key list has no duplicates and contains exactly the
keys present in both phases; a before-key without an after-record yields
no comparison and an after-only key is ignored. -/
theorem C2_pairing (fs : FileSystem) (config : ProjectConfig)
    (hfs : ∀ p, (fs p).isSome)
    (hnd : (config.beforeScreenshots.map screenKey).Nodup) :
    ((generateDiffComparisons fs config).map compKey).Nodup ∧
    ∀ k, k ∈ (generateDiffComparisons fs config).map compKey ↔
      (k ∈ config.beforeScreenshots.map screenKey ∧
        k ∈ config.afterScreenshots.map screenKey) := by
  unfold generateDiffComparisons
  rw [diffComparisonsLoop_map_key fs config hfs]
  refine ⟨hnd.filter _, fun k => ?_⟩
  rw [List.mem_filter]
  simp

/-- A screenshot record of post type "page" for the pairing examples. -/
def mkSR (slug : String) (pre : String) : ScreenshotResult :=
  { url := "https://site.test/" ++ slug, slug := slug, postType := "page",
    title := slug, desktopPath := pre ++ "/" ++ slug ++ "-d.png",
    mobilePath := pre ++ "/" ++ slug ++ "-m.png" }

/-- A filesystem on which every path holds the 1 x 1 white image. -/
def fsAll : FileSystem := fun _ => some pngWhite1

/-- The specification's pairing example: before keys a, b, c and after
keys a, c, d. -/
def cfgC2 : ProjectConfig :=
  { siteUrl := "https://site.test", projectFolder := "output/site",
    cookieConfig := { mode := CookieMode.auto },
    urls := [],
    beforeScreenshots := [mkSR "a" "before", mkSR "b" "before", mkSR "c" "before"],
    afterScreenshots := [mkSR "a" "after", mkSR "c" "after", mkSR "d" "after"] }

/-- Witness for C2: on before {a, b, c} and after {a, c, d} the comparison
set holds a and c, without duplicates, and neither b nor d. -/
theorem C2_witness :
    ((generateDiffComparisons fsAll cfgC2).map compKey).Nodup ∧
    ("page", "a") ∈ (generateDiffComparisons fsAll cfgC2).map compKey ∧
    ("page", "c") ∈ (generateDiffComparisons fsAll cfgC2).map compKey ∧
    ("page", "b") ∉ (generateDiffComparisons fsAll cfgC2).map compKey ∧
    ("page", "d") ∉ (generateDiffComparisons fsAll cfgC2).map compKey := by
  have h := C2_pairing fsAll cfgC2 (fun _ => rfl) (by decide)
  refine ⟨h.1, (h.2 _).mpr (by decide), (h.2 _).mpr (by decide),
    fun hmem => absurd ((h.2 _).mp hmem) (by decide),
    fun hmem => absurd ((h.2 _).mp hmem) (by decide)⟩

/-! ### C4: a missing artifact skips one pair and nothing else -/

/-- A missing input file makes compareScreenshots throw. -/
theorem compareScreenshots_error_of_missing (fs : FileSystem) (p q dp : String)
    (o : CompareOptions) (h : fs p = Option.none ∨ fs q = Option.none) :
    ∃ msg, compareScreenshots fs p q dp o = Except.error msg := by
  rcases h with h | h
  · exact ⟨_, by unfold compareScreenshots; rw [h]⟩
  · cases hp : fs p with
    | none => exact ⟨_, by unfold compareScreenshots; rw [hp]⟩
    | some i1 => exact ⟨_, by unfold compareScreenshots; rw [hp, h]⟩

/-- A pair one of whose four artifact files is missing produces no
comparison record. -/
theorem compareOnePair_none_of_missing (fs : FileSystem) (config : ProjectConfig)
    (b a : ScreenshotResult)
    (hmiss : fs (pathJoin config.projectFolder b.desktopPath) = Option.none ∨
      fs (pathJoin config.projectFolder a.desktopPath) = Option.none ∨
      fs (pathJoin config.projectFolder b.mobilePath) = Option.none ∨
      fs (pathJoin config.projectFolder a.mobilePath) = Option.none) :
    compareOnePair fs config b a = Option.none := by
  unfold compareOnePair
  cases hd : compareScreenshots fs (pathJoin config.projectFolder b.desktopPath)
      (pathJoin config.projectFolder a.desktopPath)
      (pathJoin (pathJoin config.projectFolder "diff")
        (b.postType ++ "-" ++ b.slug ++ "-desktop-diff.png")) {} with
  | error e => rfl
  | ok d =>
    cases hm : compareScreenshots fs (pathJoin config.projectFolder b.mobilePath)
        (pathJoin config.projectFolder a.mobilePath)
        (pathJoin (pathJoin config.projectFolder "diff")
          (b.postType ++ "-" ++ b.slug ++ "-mobile-diff.png")) {} with
    | error e => rfl
    | ok m =>
      exfalso
      rcases hmiss with h | h | h | h
      · obtain ⟨msg, hmsg⟩ := compareScreenshots_error_of_missing fs _ _ _ {} (Or.inl h)
        exact Except.noConfusion (hmsg.symm.trans hd)
      · obtain ⟨msg, hmsg⟩ := compareScreenshots_error_of_missing fs _ _ _ {} (Or.inr h)
        exact Except.noConfusion (hmsg.symm.trans hd)
      · obtain ⟨msg, hmsg⟩ := compareScreenshots_error_of_missing fs _ _ _ {} (Or.inl h)
        exact Except.noConfusion (hmsg.symm.trans hm)
      · obtain ⟨msg, hmsg⟩ := compareScreenshots_error_of_missing fs _ _ _ {} (Or.inr h)
        exact Except.noConfusion (hmsg.symm.trans hm)

/-- The pairing loop distributes over list append. -/
theorem diffComparisonsLoop_append (fs : FileSystem) (config : ProjectConfig)
    (l1 l2 : List ScreenshotResult) :
    diffComparisonsLoop fs config (l1 ++ l2) =
      diffComparisonsLoop fs config l1 ++ diffComparisonsLoop fs config l2 := by
  induction l1 with
  | nil => rfl
  | cons b rest ih =>
    cases hfa : findAfter config.afterScreenshots b with
    | none =>
      simp only [List.cons_append, diffComparisonsLoop, hfa]
      exact ih
    | some a =>
      cases hcp : compareOnePair fs config b a with
      | none =>
        simp only [List.cons_append, diffComparisonsLoop, hfa, hcp]
        exact ih
      | some c =>
        simp only [List.cons_append, diffComparisonsLoop, hfa, hcp]
        exact congrArg (c :: ·) ih

/-- The pairing loop never reads the beforeScreenshots field of the
config record it is handed, so replacing that field changes nothing. -/
theorem diffComparisonsLoop_before_irrel (fs : FileSystem) (config : ProjectConfig)
    (x : List ScreenshotResult) :
    ∀ l, diffComparisonsLoop fs { config with beforeScreenshots := x } l =
      diffComparisonsLoop fs config l := by
  intro l
  have hco : ∀ b a, compareOnePair fs { config with beforeScreenshots := x } b a =
      compareOnePair fs config b a := fun _ _ => rfl
  have hfa : ∀ b, findAfter ({ config with beforeScreenshots := x } :
      ProjectConfig).afterScreenshots b = findAfter config.afterScreenshots b :=
    fun _ => rfl
  induction l with
  | nil => rfl
  | cons b rest ih =>
    simp only [diffComparisonsLoop, hco, hfa, ih]

/-- C4: a missing before or after artifact makes compareScreenshots throw,
and generateDiffComparisons skips exactly that pair: its output equals the
output on the batch without the failing pair. -/
theorem C4_missing_artifact :
    (∀ (fs : FileSystem) (p q dp : String) (o : CompareOptions),
      fs p = Option.none ∨ fs q = Option.none →
      ∃ msg, compareScreenshots fs p q dp o = Except.error msg) ∧
    (∀ (fs : FileSystem) (config : ProjectConfig)
      (pre post : List ScreenshotResult) (b a : ScreenshotResult),
      config.beforeScreenshots = pre ++ b :: post →
      findAfter config.afterScreenshots b = some a →
      (fs (pathJoin config.projectFolder b.desktopPath) = Option.none ∨
       fs (pathJoin config.projectFolder a.desktopPath) = Option.none ∨
       fs (pathJoin config.projectFolder b.mobilePath) = Option.none ∨
       fs (pathJoin config.projectFolder a.mobilePath) = Option.none) →
      generateDiffComparisons fs config =
        generateDiffComparisons fs { config with beforeScreenshots := pre ++ post }) := by
  refine ⟨compareScreenshots_error_of_missing, ?_⟩
  intro fs config pre post b a hbefore hfind hmiss
  unfold generateDiffComparisons
  rw [show ({ config with beforeScreenshots := pre ++ post } :
    ProjectConfig).beforeScreenshots = pre ++ post from rfl]
  rw [diffComparisonsLoop_before_irrel fs config (pre ++ post) (pre ++ post)]
  rw [hbefore, diffComparisonsLoop_append, diffComparisonsLoop_append]
  congr 1
  show diffComparisonsLoop fs config (b :: post) = diffComparisonsLoop fs config post
  simp only [diffComparisonsLoop, hfind,
    compareOnePair_none_of_missing fs config b a hmiss]

/-- A filesystem missing exactly the after-desktop artifact of slug y. -/
def fsC4 : FileSystem := fun p =>
  if p = "output/site/after/y-d.png" then Option.none else some pngWhite1

/-- Config with two paired slugs x and y. -/
def cfgC4 : ProjectConfig :=
  { siteUrl := "https://site.test", projectFolder := "output/site",
    cookieConfig := { mode := CookieMode.auto },
    urls := [],
    beforeScreenshots := [mkSR "x" "before", mkSR "y" "before"],
    afterScreenshots := [mkSR "x" "after", mkSR "y" "after"] }

/-- Witness for C4: with the after-desktop file of y missing, the batch
output equals the output on the batch without the y pair. -/
theorem C4_witness :
    generateDiffComparisons fsC4 cfgC4 =
      generateDiffComparisons fsC4 { cfgC4 with beforeScreenshots := [mkSR "x" "before"] } :=
  C4_missing_artifact.2 fsC4 cfgC4 [mkSR "x" "before"] [] (mkSR "y" "before")
    (mkSR "y" "after") rfl (by decide) (Or.inr (Or.inl rfl))

/-! ### C5 and C10: the capture loop -/

/-- With the browser initialized, screenshotUrl returns a record carrying
the descriptor's identity fields, with the context closed. -/
theorem screenshotUrl_ok (env : CaptureEnv) (projectFolder : String)
    (urlInfo : UrlToScreenshot) (phase : Phase) (hinit : env.browserInit = true) :
    ∃ run, screenshotUrl env projectFolder urlInfo phase = Except.ok run ∧
      run.result.url = urlInfo.url ∧ run.result.slug = urlInfo.slug ∧
      run.result.postType = urlInfo.postType ∧ run.result.title = urlInfo.title ∧
      run.contextClosed = true := by
  unfold screenshotUrl
  rw [hinit]
  exact ⟨_, rfl, rfl, rfl, rfl, rfl, rfl⟩

/-- An environment whose browser was never initialized. -/
def envNoBrowser : CaptureEnv :=
  { browserInit := false, captureOutcome := fun _ _ => Except.ok () }

/-- The synthetic homepage descriptor. -/
def uHome : UrlToScreenshot :=
  { url := "https://site.test/", slug := "homepage", postType := "homepage",
    title := "Homepage" }

/-- Counterexample to C5 as stated: when init() has not run, screenshotUrl
throws to its caller instead of returning a record. -/
theorem C5_counterexample :
    screenshotUrl envNoBrowser "output/site" uHome Phase.before =
      Except.error "Browser not initialized. Call init() first." := rfl

/-- C5 amended: once the browser is initialized, screenshotUrl always
returns a record with the descriptor's identity (whatever the capture
outcomes are), never propagates a capture error, and closes the browsing
context even when a capture fails. -/
theorem C5_never_throws (env : CaptureEnv) (projectFolder : String)
    (urlInfo : UrlToScreenshot) (phase : Phase) (hinit : env.browserInit = true) :
    (screenshotUrl env projectFolder urlInfo phase).map
      (fun run => (run.result.url, run.result.slug, run.result.postType,
        run.result.title, run.contextClosed)) =
      Except.ok (urlInfo.url, urlInfo.slug, urlInfo.postType, urlInfo.title, true) := by
  obtain ⟨run, hrun, h1, h2, h3, h4, h5⟩ :=
    screenshotUrl_ok env projectFolder urlInfo phase hinit
  rw [hrun, Except.map, h1, h2, h3, h4, h5]

/-- An initialized environment in which every capture fails. -/
def envFailing : CaptureEnv :=
  { browserInit := true, captureOutcome := fun _ _ => Except.error "timeout" }

/-- Witness for C5: even with every takeScreenshot failing, screenshotUrl
returns the homepage record with the context closed. -/
theorem C5_witness :
    envFailing.browserInit = true ∧
    (screenshotUrl envFailing "output/site" uHome Phase.after).map
      (fun run => (run.result.url, run.result.slug, run.result.postType,
        run.result.title, run.contextClosed)) =
      Except.ok (uHome.url, uHome.slug, uHome.postType, uHome.title, true) :=
  ⟨rfl, C5_never_throws envFailing "output/site" uHome Phase.after rfl⟩

/-- C10: with the browser initialized, screenshotAll returns exactly one
record per input descriptor, in input order, with url, slug, postType and
title copied unchanged — whatever the capture outcomes are. -/
theorem C10_one_record_per_descriptor (env : CaptureEnv) (projectFolder : String)
    (urls : List UrlToScreenshot) (phase : Phase) (hinit : env.browserInit = true) :
    (screenshotAll env projectFolder urls phase).map
      (fun runs => runs.map (fun r =>
        (r.result.url, r.result.slug, r.result.postType, r.result.title))) =
      Except.ok (urls.map (fun u => (u.url, u.slug, u.postType, u.title))) := by
  induction urls with
  | nil => rfl
  | cons u rest ih =>
    obtain ⟨run, hrun, h1, h2, h3, h4, _⟩ :=
      screenshotUrl_ok env projectFolder u phase hinit
    cases hall : screenshotAll env projectFolder rest phase with
    | error e =>
      rw [hall] at ih
      exact absurd ih (by rw [Except.map]; exact fun h => Except.noConfusion h)
    | ok rs =>
      rw [hall] at ih
      rw [Except.map] at ih
      injection ih with ih
      show (screenshotAll env projectFolder (u :: rest) phase).map _ = _
      unfold screenshotAll
      rw [hrun, hall]
      show Except.ok ((run :: rs).map _) = _
      rw [List.map_cons, List.map_cons, h1, h2, h3, h4, ih]

/-- Witness for C10: two descriptors, one of which fails to capture, still
produce exactly their two records in order. -/
theorem C10_witness :
    (screenshotAll envFailing "output/site" [uHome,
      { url := "https://site.test/contact", slug := "contact", postType := "page",
        title := "Contact" }] Phase.before).map
      (fun runs => runs.map (fun r =>
        (r.result.url, r.result.slug, r.result.postType, r.result.title))) =
      Except.ok ([uHome,
        { url := "https://site.test/contact", slug := "contact", postType := "page",
          title := "Contact" }].map (fun u => (u.url, u.slug, u.postType, u.title))) :=
  C10_one_record_per_descriptor envFailing "output/site" _ Phase.before rfl

/-! ### C9: overlay dismissal order -/

/-- The full ordered candidate sequence of (text, strategy) attempts:
for each candidate text in order, the three strategies in order. -/
def cookieAllPairs (config : CookieConfig) : List (String × CookieStrategy) :=
  (cookieSearchTexts config).flatMap (fun t =>
    [(t, CookieStrategy.roleButton), (t, CookieStrategy.exactText),
      (t, CookieStrategy.looseText)])

/-- The candidate loop tries the (text, strategy) pairs in order and stops
at the first successful click: its trace is the failing prefix plus the
first success, and its click is the first successful pair. -/
theorem cookieBannerLoop_spec (page : CookiePage) :
    ∀ texts : List String,
      cookieBannerLoop page texts =
        ((texts.flatMap (fun t =>
            [(t, CookieStrategy.roleButton), (t, CookieStrategy.exactText),
              (t, CookieStrategy.looseText)])).takeWhile
            (fun p => !page.clickSucceeds p.1 p.2) ++
          ((texts.flatMap (fun t =>
            [(t, CookieStrategy.roleButton), (t, CookieStrategy.exactText),
              (t, CookieStrategy.looseText)])).find?
            (fun p => page.clickSucceeds p.1 p.2)).toList,
         (texts.flatMap (fun t =>
            [(t, CookieStrategy.roleButton), (t, CookieStrategy.exactText),
              (t, CookieStrategy.looseText)])).find?
            (fun p => page.clickSucceeds p.1 p.2)) := by
  intro texts
  induction texts with
  | nil => rfl
  | cons t rest ih =>
    cases h1 : page.clickSucceeds t CookieStrategy.roleButton with
    | true =>
      simp [cookieBannerLoop, tryCookieText, h1, List.flatMap_cons,
        List.takeWhile_cons, List.find?_cons]
    | false =>
      cases h2 : page.clickSucceeds t CookieStrategy.exactText with
      | true =>
        simp [cookieBannerLoop, tryCookieText, h1, h2, List.flatMap_cons,
          List.takeWhile_cons, List.find?_cons]
      | false =>
        cases h3 : page.clickSucceeds t CookieStrategy.looseText with
        | true =>
          simp [cookieBannerLoop, tryCookieText, h1, h2, h3, List.flatMap_cons,
            List.takeWhile_cons, List.find?_cons]
        | false =>
          simp only [cookieBannerLoop, tryCookieText, h1, h2, h3, ih,
            List.flatMap_cons, List.takeWhile_cons, List.find?_cons,
            Bool.false_eq_true, if_false, Bool.not_false, List.cons_append,
            List.append_assoc]
          simp [h1, h2, h3]

/-- C9: the candidate list is the built-in bilingual list in auto mode and
the custom text alone in custom mode (with a nonempty custom text); the
procedure tries role, exact-text and loose-text per candidate in order and
stops the whole procedure at the first successful click, attempting
nothing after it. -/
theorem C9_overlay_dismissal :
    (∀ config : CookieConfig, config.mode = CookieMode.auto →
      cookieSearchTexts config = COMMON_COOKIE_TEXTS) ∧
    (∀ (config : CookieConfig) (t : String), config.mode = CookieMode.custom →
      config.customText = some t → t ≠ "" → cookieSearchTexts config = [t]) ∧
    (∀ (page : CookiePage) (config : CookieConfig), config.mode ≠ CookieMode.none →
      handleCookieBanner page config =
        ((cookieAllPairs config).takeWhile (fun p => !page.clickSucceeds p.1 p.2) ++
          ((cookieAllPairs config).find? (fun p => page.clickSucceeds p.1 p.2)).toList,
         (cookieAllPairs config).find? (fun p => page.clickSucceeds p.1 p.2))) := by
  refine ⟨fun config hmode => ?_, fun config t hmode hct hne => ?_,
    fun page config hne => ?_⟩
  · unfold cookieSearchTexts
    cases config.customText with
    | none => rfl
    | some t =>
      show (if config.mode = CookieMode.custom ∧ t ≠ "" then [t]
        else COMMON_COOKIE_TEXTS) = COMMON_COOKIE_TEXTS
      rw [if_neg]
      rintro ⟨hcustom, _⟩
      rw [hmode] at hcustom
      exact CookieMode.noConfusion hcustom
  · unfold cookieSearchTexts
    rw [hct]
    show (if config.mode = CookieMode.custom ∧ t ≠ "" then [t]
      else COMMON_COOKIE_TEXTS) = [t]
    rw [if_pos ⟨hmode, hne⟩]
  · unfold handleCookieBanner
    rw [if_neg hne]
    exact cookieBannerLoop_spec page (cookieSearchTexts config)

/-- A page on which only the exact-text strategy on the text OK clicks. -/
def pageW9 : CookiePage :=
  { clickSucceeds := fun t s =>
      t == "OK" &&
        (match s with
          | CookieStrategy.exactText => true
          | _ => false) }

/-- An auto-mode overlay configuration. -/
def cfgW9 : CookieConfig := { mode := CookieMode.auto }

/-- Witness for C9: in auto mode on pageW9 the click is the exact-text
strategy on OK (the fifth candidate), after 13 failed attempts, and
nothing after it is attempted. -/
theorem C9_witness :
    (handleCookieBanner pageW9 cfgW9).2 = some ("OK", CookieStrategy.exactText) ∧
    (handleCookieBanner pageW9 cfgW9).1.length = 14 :=
  ⟨(congrArg Prod.snd (C9_overlay_dismissal.2.2 pageW9 cfgW9 (by decide))).trans
      (by decide),
   (congrArg (fun p => p.1.length) (C9_overlay_dismissal.2.2 pageW9 cfgW9
      (by decide))).trans (by decide)⟩

/-! ### C8: sanitizeFilename -/

/-- Adjacent characters are not both hyphens. -/
def noDoubleHyphen (a b : Char) : Prop := ¬(a = '-' ∧ b = '-')

/-- Cons characterization of the hyphen-run collapse. -/
theorem collapseHyphens_cons (a : Char) (l : List Char) :
    collapseHyphens (a :: l) =
      if a = '-' ∧ l.head? = some '-' then collapseHyphens l
      else a :: collapseHyphens l := by
  cases l with
  | nil =>
    rw [if_neg]
    · rfl
    · rintro ⟨_, h⟩
      exact Option.noConfusion h
  | cons b t =>
    show (if a = '-' ∧ b = '-' then collapseHyphens (b :: t)
      else a :: collapseHyphens (b :: t)) = _
    by_cases h : a = '-' ∧ b = '-'
    · rw [if_pos h, if_pos ⟨h.1, by rw [List.head?_cons, h.2]⟩]
    · rw [if_neg h, if_neg (fun hc => h ⟨hc.1, Option.some.inj (by
        rw [List.head?_cons] at hc; exact hc.2)⟩)]

/-- Collapsing preserves the first character. -/
theorem collapseHyphens_head? : ∀ l : List Char,
    (collapseHyphens l).head? = l.head? := by
  intro l
  induction l with
  | nil => rfl
  | cons a t ih =>
    rw [collapseHyphens_cons]
    by_cases h : a = '-' ∧ t.head? = some '-'
    · rw [if_pos h, ih, h.2, List.head?_cons, h.1]
    · rw [if_neg h, List.head?_cons, List.head?_cons]

/-- After collapsing, no two adjacent characters are both hyphens. -/
theorem collapseHyphens_chain' : ∀ l : List Char,
    (collapseHyphens l).Chain' noDoubleHyphen := by
  intro l
  induction l with
  | nil => exact List.chain'_nil
  | cons a t ih =>
    rw [collapseHyphens_cons]
    by_cases h : a = '-' ∧ t.head? = some '-'
    · rw [if_pos h]
      exact ih
    · rw [if_neg h, List.chain'_cons']
      refine ⟨fun y hy => ?_, ih⟩
      rw [Option.mem_def, collapseHyphens_head?] at hy
      rintro ⟨ha, hyh⟩
      exact h ⟨ha, by rw [hy, hyh]⟩

/-- Collapsing only removes characters. -/
theorem mem_collapseHyphens : ∀ (l : List Char) (c : Char),
    c ∈ collapseHyphens l → c ∈ l := by
  intro l
  induction l with
  | nil => intro c h; exact absurd h (List.not_mem_nil c)
  | cons a t ih =>
    intro c h
    rw [collapseHyphens_cons] at h
    by_cases hc : a = '-' ∧ t.head? = some '-'
    · rw [if_pos hc] at h
      exact List.mem_cons_of_mem a (ih c h)
    · rw [if_neg hc] at h
      rcases List.mem_cons.mp h with h | h
      · rw [h]
        exact List.mem_cons_self a t
      · exact List.mem_cons_of_mem a (ih c h)

/-- After dropping the leading hyphen of a collapsed string, the first
character is not a hyphen. -/
theorem dropLeadingHyphen_head (l : List Char) (hch : l.Chain' noDoubleHyphen) :
    ∀ c, (dropLeadingHyphen l).head? = some c → c ≠ '-' := by
  intro c hc
  cases l with
  | nil => exact absurd hc (by simp [dropLeadingHyphen])
  | cons a t =>
    rw [show dropLeadingHyphen (a :: t) = if a = '-' then t else a :: t from rfl] at hc
    by_cases ha : a = '-'
    · rw [if_pos ha] at hc
      cases t with
      | nil => exact absurd hc (by simp)
      | cons b u =>
        rw [List.head?_cons] at hc
        injection hc with hc
        subst hc
        intro hcEq
        exact (List.chain'_cons.mp hch).1 ⟨ha, hcEq⟩
    · rw [if_neg ha] at hc
      rw [List.head?_cons] at hc
      injection hc with hc
      subst hc
      exact ha

/-- Dropping the leading hyphen keeps the no-double-hyphen property. -/
theorem dropLeadingHyphen_chain' (l : List Char) (h : l.Chain' noDoubleHyphen) :
    (dropLeadingHyphen l).Chain' noDoubleHyphen := by
  cases l with
  | nil => exact List.chain'_nil
  | cons a t =>
    show (if a = '-' then t else a :: t).Chain' noDoubleHyphen
    by_cases ha : a = '-'
    · rw [if_pos ha]
      exact h.tail
    · rw [if_neg ha]
      exact h

/-- Dropping the leading hyphen only removes a character. -/
theorem mem_dropLeadingHyphen (l : List Char) (c : Char) :
    c ∈ dropLeadingHyphen l → c ∈ l := by
  cases l with
  | nil => intro h; exact h
  | cons a t =>
    intro h
    rw [show dropLeadingHyphen (a :: t) = if a = '-' then t else a :: t from rfl] at h
    by_cases ha : a = '-'
    · rw [if_pos ha] at h
      exact List.mem_cons_of_mem a h
    · rw [if_neg ha] at h
      exact h

/-- Dropping the trailing hyphen only removes a character. -/
theorem mem_dropTrailingHyphen (l : List Char) (c : Char) :
    c ∈ dropTrailingHyphen l → c ∈ l := by
  intro h
  unfold dropTrailingHyphen at h
  rw [List.mem_reverse] at h
  exact List.mem_reverse.mp (mem_dropLeadingHyphen _ _ h)

/-- The no-double-hyphen property is preserved by reversal. -/
theorem chain'_reverse_noDouble (l : List Char) (h : l.Chain' noDoubleHyphen) :
    l.reverse.Chain' noDoubleHyphen := by
  rw [List.chain'_reverse]
  exact h.imp (fun a b hab hc => hab ⟨hc.2, hc.1⟩)

/-- After dropping the trailing hyphen of a collapsed string, the last
character is not a hyphen. -/
theorem dropTrailingHyphen_getLast (l : List Char) (hch : l.Chain' noDoubleHyphen) :
    ∀ c, (dropTrailingHyphen l).getLast? = some c → c ≠ '-' := by
  intro c hc
  unfold dropTrailingHyphen at hc
  rw [List.getLast?_reverse] at hc
  exact dropLeadingHyphen_head l.reverse (chain'_reverse_noDouble l hch) c hc

/-- Dropping the trailing hyphen does not change the first character. -/
theorem dropTrailingHyphen_head (l : List Char) (c : Char)
    (hc : (dropTrailingHyphen l).head? = some c) : l.head? = some c := by
  unfold dropTrailingHyphen at hc
  rw [List.head?_reverse] at hc
  cases hrev : l.reverse with
  | nil =>
    rw [hrev] at hc
    exact absurd hc (by simp [dropLeadingHyphen])
  | cons a t =>
    rw [hrev] at hc
    have hl : l = (a :: t).reverse := by rw [← hrev, List.reverse_reverse]
    by_cases ha : a = '-'
    · rw [show dropLeadingHyphen (a :: t) = if a = '-' then t else a :: t from rfl,
        if_pos ha] at hc
      rw [hl, List.reverse_cons, List.head?_append, List.head?_reverse, hc]
      rfl
    · rw [show dropLeadingHyphen (a :: t) = if a = '-' then t else a :: t from rfl,
        if_neg ha] at hc
      rw [hl, List.head?_reverse]
      exact hc

/-- Every character the first replacement produces is in [a-z0-9-]. -/
theorem replaceNonKept_chars (l : List Char) :
    ∀ c ∈ l.map (fun c => if isKeptChar c then c else '-'), isKeptChar c = true := by
  intro c hc
  obtain ⟨d, _, hd⟩ := List.mem_map.mp hc
  by_cases hk : isKeptChar d = true
  · rw [if_pos hk] at hd
    rw [← hd]
    exact hk
  · rw [if_neg hk] at hd
    rw [← hd]
    decide

/-- C8 fails on the code in two places: the sanitizer also collapses runs
of pre-existing hyphens, which the spec's run-replacement would keep
("a--b" maps to "a-b", not "a--b"); and the length truncation runs after
hyphen trimming, so an input of 49 a's followed by "-b" produces an output
with a trailing hyphen. -/
theorem C8_counterexample :
    sanitizeFilename "a--b" ≠ specSanitizeFilename "a--b" ∧
    (sanitizeFilename
      "aaaaaaaaaaaaaaaaaaaaaaaaaaaaaaaaaaaaaaaaaaaaaaaaa-b").data.getLast? =
      some '-' := by
  constructor
  · decide
  · decide

/-- C8 amended: sanitizeFilename lower-cases, replaces every character
outside [a-z0-9-] by a hyphen, collapses every hyphen run (including runs
of pre-existing hyphens) to one hyphen, trims a leading and a trailing
hyphen, then truncates to 50 characters; consequently every output
consists only of characters in [a-z0-9-], has length at most 50, never
starts with a hyphen, and ends with a hyphen only when truncation cut the
string. -/
theorem C8_sanitize (name : String) :
    sanitizeFilename name = String.mk (List.take 50 (sanitizePreTruncate name)) ∧
    (∀ c ∈ (sanitizeFilename name).data, isKeptChar c = true) ∧
    (sanitizeFilename name).length ≤ 50 ∧
    (∀ c, (sanitizeFilename name).data.head? = some c → c ≠ '-') ∧
    ((sanitizePreTruncate name).length ≤ 50 →
      ∀ c, (sanitizeFilename name).data.getLast? = some c → c ≠ '-') := by
  refine ⟨rfl, ?_, ?_, ?_, ?_⟩
  · intro c hc
    have hc' : c ∈ sanitizePreTruncate name := List.mem_of_mem_take hc
    unfold sanitizePreTruncate at hc'
    exact replaceNonKept_chars _ c
      (mem_collapseHyphens _ _ (mem_dropLeadingHyphen _ _
        (mem_dropTrailingHyphen _ _ hc')))
  · show (List.take 50 (sanitizePreTruncate name)).length ≤ 50
    rw [List.length_take]
    exact min_le_left _ _
  · intro c hc
    have hc' : (List.take 50 (sanitizePreTruncate name)).head? = some c := hc
    rw [List.head?_take, if_neg (by omega)] at hc'
    unfold sanitizePreTruncate at hc'
    exact dropLeadingHyphen_head _ (collapseHyphens_chain' _) c
      (dropTrailingHyphen_head _ _ hc')
  · intro hlen c hc
    have hc' : (List.take 50 (sanitizePreTruncate name)).getLast? = some c := hc
    rw [List.take_of_length_le hlen] at hc'
    unfold sanitizePreTruncate at hc'
    exact dropTrailingHyphen_getLast _
      (dropLeadingHyphen_chain' _ (collapseHyphens_chain' _)) c hc'

/-- Witness for C8: the amended properties evaluated on a concrete input
whose sanitized form is hello-world. -/
theorem C8_witness :
    (sanitizeFilename "Hello World!").length ≤ 50 ∧
    ('h' : Char) ≠ '-' ∧ ('d' : Char) ≠ '-' :=
  ⟨(C8_sanitize "Hello World!").2.2.1,
   (C8_sanitize "Hello World!").2.2.2.1 'h' (by decide),
   (C8_sanitize "Hello World!").2.2.2.2 (by decide) 'd' (by decide)⟩

end PixelPolice
